import Mathlib

/-!
Verification of the task-table engine of `task_manager.py`.

The module stores a table of task records as an ordered list of rows; each
row has the twelve columns of `COLUMNS`, every cell holding either a string
or the absent marker (Python `None`).  We embed a row as a structure with
twelve `Option String` fields, a table as a `List TaskRecord`, and each
fallible operation as a function into `Except Err _`, where `Err` names the
raise sites of the Python code (`ValueError` messages, plus the
`AttributeError` that `None.strip()` raises).

Nondeterministic inputs of the code are passed explicitly: the fresh id
drawn from `uuid.uuid4()` and the timestamp `_now_iso()` become parameters
`freshId` and `now`; `date.today()` becomes the parameter `today`.
Calendar dates are encoded as the natural number `y*10000 + m*100 + d`,
which is order-isomorphic to Python `date` comparison on the valid range;
`date.max` is `9999-12-31`.  The CSV file is modelled at the cell level as
a `List (List String)` (header row first), which is what `csv.DictWriter` /
`csv.DictReader` write and read back.
-/

namespace TaskManager

/-- The enum of priorities, in the order of the Python list `PRIORITIES`. -/
def PRIORITIES : List String := ["Low", "Medium", "High", "Urgent"]

/-- The enum of statuses, in the order of the Python list `STATUSES`. -/
def STATUSES : List String := ["To Do", "In Progress", "Blocked", "Completed"]

/-- The fixed column list, in the order of the Python list `COLUMNS`. -/
def COLUMNS : List String :=
  ["task_id", "task_name", "description", "category", "priority", "status",
   "start_date", "due_date", "completion_date", "assigned_to", "notes",
   "last_updated"]

/-- The raise sites of the engine.  Each constructor stands for one
`raise` statement of `task_manager.py` (with its message), except
`attributeNoneStrip`, which stands for the `AttributeError` thrown by
`None.strip()` when `task_name` is stored as `None`. -/
inductive Err where
  /-- ValueError: task_name is required -/
  | taskNameRequired
  /-- ValueError: priority must be one of PRIORITIES -/
  | badPriority
  /-- ValueError: status must be one of STATUSES -/
  | badStatus
  /-- ValueError: the named field must be in YYYY-MM-DD format -/
  | badDateFormat (field : String)
  /-- ValueError: start_date must be on or before due_date -/
  | startAfterDue
  /-- ValueError: completion_date can only be set when status is Completed -/
  | completionWithoutCompleted
  /-- ValueError: completion_date cannot be before start_date -/
  | completionBeforeStart
  /-- ValueError: task_id must be unique (raised both by the membership
  check in `add_task` and by the count check in `_validate_task_record`) -/
  | duplicateId
  /-- ValueError: task_id is immutable -/
  | immutableTaskId
  /-- ValueError: the given task_id was not found -/
  | notFound (tid : String)
  /-- ValueError: CSV columns do not match expected schema -/
  | csvSchemaMismatch
  /-- ValueError: Duplicate task_id found in CSV -/
  | csvDuplicateId
  /-- AttributeError raised by calling .strip() on None -/
  | attributeNoneStrip
  deriving DecidableEq, Repr

/-- One row of the table: one `Option String` cell per column of
`COLUMNS`, `none` being Python `None` (the absent marker).  The record
type plays the role of `_ensure_columns`: every column is always
present. -/
structure TaskRecord where
  task_id : Option String
  task_name : Option String
  description : Option String
  category : Option String
  priority : Option String
  status : Option String
  start_date : Option String
  due_date : Option String
  completion_date : Option String
  assigned_to : Option String
  notes : Option String
  last_updated : Option String
  deriving DecidableEq, Inhabited, Repr

/-- The `updates` dict of `update_task`: for each recognized column,
`none` means the key is missing from the dict, `some v` means the key is
present with value `v` (possibly `some none`, Python `None`). -/
structure TaskUpdates where
  task_id : Option (Option String) := none
  task_name : Option (Option String) := none
  description : Option (Option String) := none
  category : Option (Option String) := none
  priority : Option (Option String) := none
  status : Option (Option String) := none
  start_date : Option (Option String) := none
  due_date : Option (Option String) := none
  completion_date : Option (Option String) := none
  assigned_to : Option (Option String) := none
  notes : Option (Option String) := none
  last_updated : Option (Option String) := none
  deriving DecidableEq, Inhabited, Repr

/-! ### Date parsing (`datetime.strptime(s, "%Y-%m-%d").date()`) -/

/-- Days per month, with the Gregorian leap rule, as `datetime.date`
enforces. -/
def daysInMonth (y m : Nat) : Nat :=
  if m = 2 then
    if (y % 4 = 0 && y % 100 != 0) || y % 400 = 0 then 29 else 28
  else if m = 4 || m = 6 || m = 9 || m = 11 then 30
  else 31

/-- The encoding of the calendar date `y-m-d` as a natural number. -/
def mkDate (y m d : Nat) : Nat := y * 10000 + m * 100 + d

/-- `date.max`, i.e. `9999-12-31`. -/
def dateMax : Nat := mkDate 9999 12 31

/-- The numeric value of a digit string. -/
def digitsToNat (cs : List Char) : Nat :=
  cs.foldl (fun a c => a * 10 + (c.toNat - 48)) 0

/-- Split a character list at every dash, like `"a-b-c".split("-")`:
the result always has one part per dash-separated segment (possibly
empty segments). -/
def splitDash : List Char → List (List Char)
  | [] => [[]]
  | c :: rest =>
    match splitDash rest with
    | [] => []
    | cur :: parts =>
      if c = '-' then [] :: cur :: parts else (c :: cur) :: parts

/-- `datetime.strptime(s, "%Y-%m-%d")`: exactly four digits of year, a
dash, one or two digits of month in `1..12`, a dash, one or two digits of
day, the whole string consumed; then `date(y, m, d)` checks `y ≥ 1` and
the day against the month length.  Returns `none` where Python raises
`ValueError`. -/
def parseDate (s : String) : Option Nat :=
  match splitDash s.data with
  | [ys, ms, ds] =>
    if ys.length = 4 && ys.all Char.isDigit
        && 0 < ms.length && ms.length ≤ 2 && ms.all Char.isDigit
        && 0 < ds.length && ds.length ≤ 2 && ds.all Char.isDigit then
      let y := digitsToNat ys
      let m := digitsToNat ms
      let d := digitsToNat ds
      if 1 ≤ y && 1 ≤ m && m ≤ 12 && 1 ≤ d && d ≤ daysInMonth y m then
        some (mkDate y m d)
      else none
    else none
  | _ => none

/-- `_validate_date(date_str, field_name)`: `None` and the empty string
give an absent date; otherwise the string must parse as `YYYY-MM-DD`. -/
def _validate_date (date_str : Option String) (field : String) :
    Except Err (Option Nat) :=
  match date_str with
  | none => .ok none
  | some s =>
    if s = "" then .ok none
    else
      match parseDate s with
      | some d => .ok (some d)
      | none => .error (.badDateFormat field)

/-! ### Record validation (`_validate_task_record`) -/

/-- `if cond: raise err`, as an `Except` step. -/
def failIf (cond : Bool) (e : Err) : Except Err Unit :=
  if cond then .error e else .ok ()

/-- The whitespace characters `str.strip()` removes (the ASCII ones:
space, tab, newline, carriage return, vertical tab, form feed). -/
def isPySpace (c : Char) : Bool :=
  c = ' ' || c = '\t' || c = '\n' || c = '\r' || c.toNat = 11 || c.toNat = 12

/-- The check `if not task.get("task_name", "").strip()`.  After
`_ensure_columns` the key is always present, so a missing name is stored
as `None` and `.strip()` raises `AttributeError`; a present string
strips to falsy (empty) exactly when every character is whitespace. -/
def checkName (task : TaskRecord) : Except Err Unit :=
  match task.task_name with
  | none => .error .attributeNoneStrip
  | some s =>
    if s.data.all isPySpace then .error .taskNameRequired else .ok ()

/-- Python `value in enumList` for an optional cell (`None` is never in
the list). -/
def optMem (v : Option String) (l : List String) : Bool :=
  match v with
  | some s => l.contains s
  | none => false

/-- `a < b` on two optional dates, false unless both are present —
Python `a and b and b > a`. -/
def dateLt (a b : Option Nat) : Bool :=
  match a, b with
  | some x, some y => x < y
  | _, _ => false

/-- Python truthiness of an optional string cell: `v not in (None, "")`. -/
def isSet (v : Option String) : Bool :=
  match v with
  | none => false
  | some s => s != ""

/-- The checks of `_validate_task_record` on the three date fields, in
source order: parse `start_date`, `due_date`, `completion_date`; then
`start_date ≤ due_date`; then completion-requires-Completed (on the raw
cell); then `completion_date ≥ start_date`. -/
def dateChecks (task : TaskRecord) : Except Err Unit := do
  let start ← _validate_date task.start_date "start_date"
  let due ← _validate_date task.due_date "due_date"
  let completion ← _validate_date task.completion_date "completion_date"
  failIf (dateLt due start) .startAfterDue
  failIf (isSet task.completion_date && !(task.status == some "Completed"))
    .completionWithoutCompleted
  failIf (dateLt completion start) .completionBeforeStart

/-- The record-local part of `_validate_task_record`, in source order:
name, priority enum, status enum, then the date checks. -/
def recordChecks (task : TaskRecord) : Except Err Unit := do
  checkName task
  failIf (!optMem task.priority PRIORITIES) .badPriority
  failIf (!optMem task.status STATUSES) .badStatus
  dateChecks task

/-- `_validate_task_record(task, table)`: the record-local checks, then
the uniqueness check `ids.count(task["task_id"]) > 1` over the given
table. -/
def _validate_task_record (task : TaskRecord) (table : List TaskRecord) :
    Except Err Unit := do
  recordChecks task
  failIf ((table.map TaskRecord.task_id).count task.task_id > 1) .duplicateId

/-! ### `add_task` -/

/-- The id step of `add_task`:
`task_id = task_data.get("task_id") or str(uuid.uuid4())` — a missing
**or empty-string** id is replaced by the fresh one (Python `or` tests
truthiness, and `""` is falsy). -/
def chosenId (task_data : TaskRecord) (freshId : String) : String :=
  match task_data.task_id with
  | some s => if s = "" then freshId else s
  | none => freshId

/-- `add_task(table, task_data)`.  `freshId` stands for
`str(uuid.uuid4())` and `now` for `_now_iso()`.  After the id step
(`chosenId`), a direct membership check rejects a duplicate id; the
candidate gets every column (`_ensure_columns`), the chosen id and the
timestamp, is validated against `table + [candidate]`, and is
appended. -/
def add_task (table : List TaskRecord) (task_data : TaskRecord)
    (freshId now : String) : Except Err (List TaskRecord) :=
  let tid : String := chosenId task_data freshId
  if table.any (fun row => row.task_id == some tid) then .error .duplicateId
  else
    let base : TaskRecord :=
      { task_data with task_id := some tid, last_updated := some now }
    match _validate_task_record base (table ++ [base]) with
    | .error e => .error e
    | .ok _ => .ok (table ++ [base])

/-! ### `update_task` -/

/-- A single merged cell: an update key present in the dict overrides the
old cell (even with `None`); a missing key keeps the old cell. -/
def mergeField (u : Option (Option String)) (old : Option String) :
    Option String :=
  match u with
  | some v => v
  | none => old

/-- The merged candidate `{**row, **updates}` restricted to recognized
columns, with `task_id` forced back to the targeted id and `last_updated`
re-stamped, as the two assignments after the merge do. -/
def mergeRecord (row : TaskRecord) (u : TaskUpdates) (tid now : String) :
    TaskRecord :=
  { task_id := some tid
    task_name := mergeField u.task_name row.task_name
    description := mergeField u.description row.description
    category := mergeField u.category row.category
    priority := mergeField u.priority row.priority
    status := mergeField u.status row.status
    start_date := mergeField u.start_date row.start_date
    due_date := mergeField u.due_date row.due_date
    completion_date := mergeField u.completion_date row.completion_date
    assigned_to := mergeField u.assigned_to row.assigned_to
    notes := mergeField u.notes row.notes
    last_updated := some now }

/-- The search-and-replace loop of `update_task`: the first row whose
`task_id` equals the target is merged, replaced in the copied table, and
the merged record is validated against that new table; no match raises
not-found. -/
def updateFound (table : List TaskRecord) (tid : String) (u : TaskUpdates)
    (now : String) : Except Err (List TaskRecord) :=
  match table.findIdx? (fun row => row.task_id == some tid) with
  | none => .error (.notFound tid)
  | some i =>
    let merged := mergeRecord (table.getD i default) u tid now
    let newTable := table.set i merged
    match _validate_task_record merged newTable with
    | .error e => .error e
    | .ok _ => .ok newTable

/-- `update_task(table, task_id, updates)`.  First the immutability
guard: a `task_id` key present in `updates` whose value differs from the
targeted id (Python `updates["task_id"] != task_id`, so also a `None`
value) raises; then the loop. -/
def update_task (table : List TaskRecord) (tid : String) (u : TaskUpdates)
    (now : String) : Except Err (List TaskRecord) :=
  match u.task_id with
  | some v =>
    if v = some tid then updateFound table tid u now
    else .error .immutableTaskId
  | none => updateFound table tid u now

/-! ### `sort_tasks_by_priority_and_due_date` -/

/-- `priority_rank.get(row.get("priority"), len(PRIORITIES))`: the index
in `PRIORITIES`, with 4 for `None` or an unknown value
(`List.indexOf` returns the length when the element is missing). -/
def priorityRank (p : Option String) : Nat :=
  match p with
  | some s => PRIORITIES.indexOf s
  | none => PRIORITIES.length

/-- The composite sort key of one row as a single natural number:
`rank * 10^8 + dateKey`, which orders exactly like the Python tuple
`(rank, due or date.max)` because every date key is below `10^8`.
Computing the key parses `due_date`, so it can raise. -/
def rowKey (row : TaskRecord) : Except Err Nat := do
  let due ← _validate_date row.due_date "due_date"
  pure (priorityRank row.priority * 100000000 + due.getD dateMax)

/-- The keys of all rows, computed in table order (as CPython `sorted`
builds its key array before comparing); the first malformed `due_date`
raises. -/
def keyRows : List TaskRecord → Except Err (List (Nat × TaskRecord))
  | [] => .ok []
  | row :: rest => do
    let k ← rowKey row
    let ks ← keyRows rest
    .ok ((k, row) :: ks)

/-- `sort_tasks_by_priority_and_due_date(table)`: a stable sort of the
keyed rows by the composite key.  `List.insertionSort` with `≤` on the
key is stable, as Timsort is, so the results agree. -/
def sort_tasks_by_priority_and_due_date (table : List TaskRecord) :
    Except Err (List TaskRecord) :=
  (keyRows table).map fun ks =>
    (ks.insertionSort (fun p q => p.1 ≤ q.1)).map Prod.snd

/-! ### `overdue_tasks` -/

/-- `overdue_tasks(table, today)`: keep the rows, in order, whose
`due_date` parses to a present date strictly before `today` and whose
status is not `Completed`; parsing a malformed `due_date` raises. -/
def overdue_tasks : List TaskRecord → Nat → Except Err (List TaskRecord)
  | [], _ => .ok []
  | row :: rest, today => do
    let due ← _validate_date row.due_date "due_date"
    let tail ← overdue_tasks rest today
    match due with
    | none => .ok tail
    | some d =>
      if d < today && !(row.status == some "Completed") then
        .ok (row :: tail)
      else .ok tail

/-! ### CSV export / import -/

/-- One written cell: `row.get(col, "") or ""` — `None` and `""` both
export as the empty string. -/
def cellOut (v : Option String) : String := v.getD ""

/-- One data row of the file, in `COLUMNS` order. -/
def exportRow (r : TaskRecord) : List String :=
  [cellOut r.task_id, cellOut r.task_name, cellOut r.description,
   cellOut r.category, cellOut r.priority, cellOut r.status,
   cellOut r.start_date, cellOut r.due_date, cellOut r.completion_date,
   cellOut r.assigned_to, cellOut r.notes, cellOut r.last_updated]

/-- `export_to_csv(table)` as the written file: the header row, then one
row per record. -/
def export_to_csv (table : List TaskRecord) : List (List String) :=
  COLUMNS :: table.map exportRow

/-- One read cell: `row.get(col) or None` — an empty or missing cell
becomes the absent marker. -/
def cellIn (c : String) : Option String :=
  if c = "" then none else some c

/-- One parsed data row (`csv.DictReader` matches cells to the header
positionally, missing trailing cells read as absent). -/
def importRow (cells : List String) : TaskRecord :=
  { task_id := cellIn (cells.getD 0 "")
    task_name := cellIn (cells.getD 1 "")
    description := cellIn (cells.getD 2 "")
    category := cellIn (cells.getD 3 "")
    priority := cellIn (cells.getD 4 "")
    status := cellIn (cells.getD 5 "")
    start_date := cellIn (cells.getD 6 "")
    due_date := cellIn (cells.getD 7 "")
    completion_date := cellIn (cells.getD 8 "")
    assigned_to := cellIn (cells.getD 9 "")
    notes := cellIn (cells.getD 10 "")
    last_updated := cellIn (cells.getD 11 "") }

/-- `cleaned.get("last_updated") or _now_iso()`. -/
def orNow (v : Option String) (now : String) : Option String :=
  match v with
  | none => some now
  | some s => if s = "" then some now else some s

/-- The row loop of `import_from_csv`: each parsed row is checked against
the already-imported rows for a duplicate id, gets `last_updated`
defaulted, is validated against `new_table + [cleaned]`, and is
appended. -/
def importRows (rows : List (List String)) (acc : List TaskRecord)
    (now : String) : Except Err (List TaskRecord) :=
  match rows with
  | [] => .ok acc
  | cells :: rest =>
    let cleaned := importRow cells
    if acc.any (fun ex => ex.task_id == cleaned.task_id) then
      .error .csvDuplicateId
    else
      let cleaned2 := { cleaned with
        last_updated := orNow cleaned.last_updated now }
      match _validate_task_record cleaned2 (acc ++ [cleaned2]) with
      | .error e => .error e
      | .ok _ => importRows rest (acc ++ [cleaned2]) now

/-- `import_from_csv(path)` on the file contents: the header must equal
`COLUMNS` exactly (an empty file has no header and also mismatches), then
the row loop runs on an empty table.  `now` stands for `_now_iso()`. -/
def import_from_csv (file : List (List String)) (now : String) :
    Except Err (List TaskRecord) :=
  match file with
  | [] => .error .csvSchemaMismatch
  | header :: rows =>
    if header = COLUMNS then importRows rows [] now
    else .error .csvSchemaMismatch

end TaskManager

namespace TaskManager

/-- Equality of `Except` results is decidable when both components are. -/
instance {ε α : Type} [DecidableEq ε] [DecidableEq α] :
    DecidableEq (Except ε α) := fun x y =>
  match x, y with
  | .ok a, .ok b =>
    if h : a = b then isTrue (by rw [h])
    else isFalse (fun hh => h (Except.ok.inj hh))
  | .error a, .error b =>
    if h : a = b then isTrue (by rw [h])
    else isFalse (fun hh => h (Except.error.inj hh))
  | .ok _, .error _ => isFalse (fun hh => Except.noConfusion hh)
  | .error _, .ok _ => isFalse (fun hh => Except.noConfusion hh)

/-! ### Concrete records used by the example-based claims -/

/-- A row with every cell absent. -/
def blankRecord : TaskRecord :=
  { task_id := none
    task_name := none
    description := none
    category := none
    priority := none
    status := none
    start_date := none
    due_date := none
    completion_date := none
    assigned_to := none
    notes := none
    last_updated := none }

/-- Record A of the sort example: priority High, due 2024-01-10. -/
def exA : TaskRecord :=
  { blankRecord with
      task_id := some "A", task_name := some "Alpha",
      priority := some "High", status := some "To Do",
      due_date := some "2024-01-10" }

/-- Record B of the sort example: priority High, due 2024-01-05. -/
def exB : TaskRecord :=
  { exA with task_id := some "B", due_date := some "2024-01-05" }

/-- Record C of the sort example: priority Low, due 2024-01-01. -/
def exC : TaskRecord :=
  { exA with task_id := some "C", priority := some "Low",
             due_date := some "2024-01-01" }

end TaskManager

namespace TaskManager

/-- C1 counterexample.  On the three-record example the sort puts the
`Low` record first, because `priority_rank` maps `Low` to 0 and `sorted`
orders the composite key ascending: the output is `[C, B, A]`, not the
claimed `[B, A, C]`. -/
theorem sort_example_not_BAC :
    sort_tasks_by_priority_and_due_date [exA, exB, exC] = .ok [exC, exB, exA]
      ∧ ([exC, exB, exA] : List TaskRecord) ≠ [exB, exA, exC] := by
  exact ⟨by decide, by decide⟩

/-- C1 (amended): on the example table
`[A(High, 2024-01-10), B(High, 2024-01-05), C(Low, 2024-01-01)]` the sort
returns `[C, B, A]` — priority rank ascending in the severity order
`Low < Medium < High < Urgent` (so `Low` sorts first), with due date
ascending as the tiebreak among equal ranks. -/
theorem sort_example_CBA :
    sort_tasks_by_priority_and_due_date [exA, exB, exC] =
      .ok [exC, exB, exA] := by decide

end TaskManager

namespace TaskManager

/-- A valid record whose `description` is the empty string (an empty
string is a legal free-form value, distinct from the absent marker) and
whose `last_updated` is a non-empty timestamp. -/
def exRound : TaskRecord :=
  { blankRecord with
      task_id := some "t1", task_name := some "Task",
      description := some "", priority := some "Low",
      status := some "To Do", last_updated := some "TS1" }

/-- What the CSV round trip gives back for `exRound`: the empty-string
description has collapsed to absent. -/
def exRoundBack : TaskRecord := { exRound with description := none }

/-- Valid input data with no `task_name`. -/
def exNoName : TaskRecord :=
  { blankRecord with priority := some "Low", status := some "To Do" }

/-- Valid input data whose `task_name` is whitespace only. -/
def exWsName : TaskRecord := { exNoName with task_name := some "   " }

/-- A stored record whose `task_id` is the empty string. -/
def exEmptyIdRow : TaskRecord :=
  { exNoName with task_id := some "", task_name := some "X" }

/-- Input data that supplies the empty string as `task_id`. -/
def exEmptyIdData : TaskRecord :=
  { exNoName with task_id := some "", task_name := some "Y" }

/-- What `add_task` appends for `exEmptyIdData`: the fresh id replaced
the supplied empty string. -/
def exEmptyIdAdded : TaskRecord :=
  { exEmptyIdData with task_id := some "fresh-1", last_updated := some "TS" }

/-- An `updates` dict that changes `task_id` to a different value. -/
def exUpdChangeId : TaskUpdates := { task_id := some (some "t2") }

/-- A record with a malformed `due_date`. -/
def exBadDue : TaskRecord :=
  { exNoName with task_id := some "d9", task_name := some "T",
                  due_date := some "not-a-date" }

/-- C2 counterexample.  `exRound` satisfies every invariant (its own
validation passes), yet exporting the one-record table and importing the
file back turns its empty-string `description` into the absent marker:
the round trip does not preserve the empty-string/absent distinction.
`last_updated` was non-empty and came back unchanged, so the difference
is not the tolerated `last_updated` refresh. -/
theorem csv_roundtrip_collapses_empty_string :
    _validate_task_record exRound [exRound] = .ok ()
      ∧ import_from_csv (export_to_csv [exRound]) "NOW0" = .ok [exRoundBack]
      ∧ exRoundBack.description ≠ exRound.description
      ∧ exRoundBack.last_updated = exRound.last_updated := by
  exact ⟨by decide, by decide, by decide, by decide⟩

/-- C3: the code, evaluated at the failing input.  Adding data with no
`task_name` does not fail with the required-field `ValueError`: the
stored `None` reaches `.strip()` and the call dies with an
`AttributeError` instead (first conjunct).  A whitespace-only name, by
contrast, does produce the required-field `ValueError` (second
conjunct); the two failures are distinct kinds (third conjunct). -/
theorem add_task_missing_name_attribute_error :
    add_task [] exNoName "fresh-1" "TS" = .error .attributeNoneStrip
      ∧ add_task [] exWsName "fresh-1" "TS" = .error .taskNameRequired
      ∧ (Err.attributeNoneStrip ≠ Err.taskNameRequired) := by
  exact ⟨by decide, by decide, by decide⟩

/-- C4 counterexample.  The table holds a record whose `task_id` is the
empty string, and the input data supplies that same (occurring) id; the
claim demands a duplicate-id error, but `add_task` succeeds, because the
truthiness test `task_data.get("task_id") or str(uuid.uuid4())` replaces
the empty string with the fresh id before the duplicate check. -/
theorem add_task_blank_duplicate_id_not_rejected :
    exEmptyIdData.task_id = some ""
      ∧ (exEmptyIdRow.task_id = some "")
      ∧ add_task [exEmptyIdRow] exEmptyIdData "fresh-1" "TS" =
          .ok [exEmptyIdRow, exEmptyIdAdded] := by
  exact ⟨by decide, by decide, by decide⟩

/-- C6 counterexample.  On a table whose only record has the malformed
due date `"not-a-date"`, the claim says `overdue_tasks` returns exactly
the (empty) set of matching records, but the code raises the
malformed-date `ValueError` instead of returning a list. -/
theorem overdue_malformed_date_raises :
    overdue_tasks [exBadDue] (mkDate 2024 1 15) =
        .error (.badDateFormat "due_date")
      ∧ overdue_tasks [exBadDue] (mkDate 2024 1 15) ≠ .ok [] := by
  exact ⟨by decide, by decide⟩

/-- C7 counterexample.  The empty table contains no record with id `t1`,
but with an `updates` dict that changes `task_id` the call fails with the
immutable-field `ValueError`, not the claimed `NotFoundError`: the
immutability guard runs before the existence check. -/
theorem update_missing_id_immutable_first :
    update_task [] "t1" exUpdChangeId "NOW" = .error .immutableTaskId
      ∧ (Err.immutableTaskId ≠ Err.notFound "t1") := by
  exact ⟨by decide, by decide⟩

end TaskManager

namespace TaskManager

/-! ### Derived definitions used by the claim statements -/

/-- A sequence of `add_task` calls, each with its input data, fresh id
and timestamp, folded left over a starting table; the first failure
aborts the sequence (so a fully `ok` run is exactly a sequence of
successful calls). -/
def addAll (table : List TaskRecord) :
    List (TaskRecord × String × String) → Except Err (List TaskRecord)
  | [] => .ok table
  | (td, fid, now) :: rest =>
    match add_task table td fid now with
    | .error e => .error e
    | .ok t2 => addAll t2 rest

/-- The date a stored cell denotes, when `_validate_date` succeeds on
it: absent for `None` or `""`, otherwise the parse result. -/
def parseDateOpt (v : Option String) : Option Nat :=
  match v with
  | none => none
  | some s => if s = "" then none else parseDate s

/-- A date cell on which `_validate_date` does not raise: absent, empty,
or well-formed. -/
def cellDateOk (v : Option String) : Bool :=
  match v with
  | none => true
  | some s => s == "" || (parseDate s).isSome

/-- A record whose `due_date` cell does not make `_validate_date`
raise. -/
def dueOk (r : TaskRecord) : Bool := cellDateOk r.due_date

/-- The overdue criterion of the claim: `due_date` present and parsing
strictly before `today`, and status not `Completed`. -/
def isOverdue (today : Nat) (r : TaskRecord) : Bool :=
  match parseDateOpt r.due_date with
  | none => false
  | some d => d < today && !(r.status == some "Completed")

/-- The composite sort key as a total function of the row (agrees with
`rowKey` whenever the latter does not raise). -/
def sortKeyOf (r : TaskRecord) : Nat :=
  priorityRank r.priority * 100000000 + (parseDateOpt r.due_date).getD dateMax

/-- What one CSV round trip does to one cell: an empty-string value
collapses to absent, everything else survives. -/
def collapseCell (v : Option String) : Option String :=
  match v with
  | none => none
  | some s => if s = "" then none else some s

/-- `collapseCell` on every column. -/
def collapse0 (r : TaskRecord) : TaskRecord :=
  { task_id := collapseCell r.task_id
    task_name := collapseCell r.task_name
    description := collapseCell r.description
    category := collapseCell r.category
    priority := collapseCell r.priority
    status := collapseCell r.status
    start_date := collapseCell r.start_date
    due_date := collapseCell r.due_date
    completion_date := collapseCell r.completion_date
    assigned_to := collapseCell r.assigned_to
    notes := collapseCell r.notes
    last_updated := collapseCell r.last_updated }

/-- What one CSV round trip does to one record: every cell collapses,
and an absent or empty `last_updated` is refreshed to `now`. -/
def collapseRecord (now : String) (r : TaskRecord) : TaskRecord :=
  { collapse0 r with last_updated := orNow (collapseCell r.last_updated) now }

/-- `Except.error`-ness of a result, without naming the error. -/
def isError {α : Type} : Except Err α → Bool
  | .error _ => true
  | .ok _ => false

/-! ### Further concrete records, used by the witnesses -/

/-- Input data supplying the non-empty id `t1` (which `exRound` already
holds). -/
def exDupIdData : TaskRecord :=
  { exNoName with task_id := some "t1", task_name := some "Z" }

/-- A valid completed record with a completion date. -/
def exCompleted : TaskRecord :=
  { blankRecord with
      task_id := some "t1", task_name := some "Done",
      priority := some "Low", status := some "Completed",
      completion_date := some "2024-01-05", last_updated := some "TS0" }

/-- An update moving `status` away from `Completed` (and touching
nothing else). -/
def exUpdStatus : TaskUpdates := { status := some (some "In Progress") }

/-- A record due exactly on 2024-01-15. -/
def exDueToday : TaskRecord :=
  { exNoName with task_id := some "d1", task_name := some "T",
                  due_date := some "2024-01-15" }

/-- A record due 2024-01-14 and not completed. -/
def exDueYest : TaskRecord :=
  { exNoName with task_id := some "d2", task_name := some "T",
                  due_date := some "2024-01-14" }

/-- The same overdue date as `exDueYest`, but completed. -/
def exDueYestDone : TaskRecord :=
  { exDueYest with task_id := some "d3", status := some "Completed" }

/-- A record with no due date. -/
def exNoDue : TaskRecord :=
  { exNoName with task_id := some "d4", task_name := some "T" }

/-- First of two records sharing one composite sort key (High,
2024-01-05). -/
def exS1 : TaskRecord := { exB with task_id := some "s1" }

/-- Second record with the same composite sort key as `exS1`. -/
def exS2 : TaskRecord := { exB with task_id := some "s2" }

/-- A record with a smaller sort key than `exS1`/`exS2` (Low
priority). -/
def exSC : TaskRecord := { exC with task_id := some "s3" }

end TaskManager

namespace TaskManager

/-! ### Helper lemmas -/

/-- Bind on a successful `Except` steps into the continuation. -/
theorem ok_bind {α β : Type} (a : α) (f : α → Except Err β) :
    (Except.ok a >>= f) = f a := rfl

/-- Bind on `Except` succeeds exactly when both steps do. -/
theorem except_bind_ok_iff {α β : Type} {x : Except Err α}
    {f : α → Except Err β} {b : β} :
    (x >>= f) = .ok b ↔ ∃ a, x = .ok a ∧ f a = .ok b := by
  cases x with
  | error e =>
    constructor
    · intro h
      exact absurd h (by exact fun hh => Except.noConfusion hh)
    · rintro ⟨a, ha, _⟩
      exact absurd ha (by exact fun hh => Except.noConfusion hh)
  | ok a =>
    rw [ok_bind]
    constructor
    · intro h
      exact ⟨a, rfl, h⟩
    · rintro ⟨a2, ha2, hf⟩
      rw [Except.ok.inj ha2]
      exact hf

/-- `failIf` succeeds exactly when the raise condition is false. -/
theorem failIf_ok_iff {c : Bool} {e : Err} : failIf c e = .ok () ↔ c = false := by
  cases c <;> simp [failIf]

/-- A successful `add_task` appended exactly the normalized candidate,
and the duplicate check was false. -/
theorem add_task_ok_shape {table : List TaskRecord} {td : TaskRecord}
    {fid now : String} {t2 : List TaskRecord}
    (h : add_task table td fid now = .ok t2) :
    t2 = table ++
        [{ td with task_id := some (chosenId td fid), last_updated := some now }]
      ∧ table.any (fun row => row.task_id == some (chosenId td fid)) = false := by
  unfold add_task at h
  simp only [] at h
  split at h
  · exact absurd h (by simp)
  · rename_i hany
    split at h
    · exact absurd h (by simp)
    · exact ⟨(Except.ok.inj h).symm, Bool.eq_false_iff.mpr hany⟩

/-- One successful `add_task` call keeps the `task_id` column
duplicate-free. -/
theorem add_task_preserves_nodup {table : List TaskRecord} {td : TaskRecord}
    {fid now : String} {t2 : List TaskRecord}
    (h : add_task table td fid now = .ok t2)
    (hn : (table.map TaskRecord.task_id).Nodup) :
    (t2.map TaskRecord.task_id).Nodup := by
  obtain ⟨ht2, hany⟩ := add_task_ok_shape h
  subst ht2
  rw [List.map_append, List.nodup_append]
  refine ⟨hn, List.nodup_singleton _, ?_⟩
  intro x hx hxs
  simp only [List.map_cons, List.map_nil, List.mem_singleton] at hxs
  subst hxs
  rw [List.any_eq_false] at hany
  rw [List.mem_map] at hx
  obtain ⟨r, hr, hrid⟩ := hx
  have := hany r hr
  simp only [beq_iff_eq] at this
  exact this hrid

/-- When the targeted row exists and the merged candidate fails
validation, the update loop returns exactly that validation error. -/
theorem updateFound_invalid {table : List TaskRecord} {tid : String}
    {u : TaskUpdates} {now : String} {i : Nat} {row : TaskRecord} {e : Err}
    (hfind : table.findIdx? (fun r => r.task_id == some tid) = some i)
    (hrow : table[i]? = some row)
    (hval : _validate_task_record (mergeRecord row u tid now)
        (table.set i (mergeRecord row u tid now)) = .error e) :
    updateFound table tid u now = .error e := by
  unfold updateFound
  rw [hfind]
  have hgd : table.getD i default = row := by
    rw [List.getD_eq_getElem?_getD, hrow]
    rfl
  simp only [hgd, hval]

end TaskManager

namespace TaskManager

/-- A well-formed date cell is validated to its parsed value. -/
theorem validate_date_eq_ok (v : Option String) (f : String)
    (h : cellDateOk v = true) :
    _validate_date v f = .ok (parseDateOpt v) := by
  unfold _validate_date parseDateOpt
  cases v with
  | none => rfl
  | some s =>
    by_cases hs : s = ""
    · simp [hs]
    · simp only [if_neg hs]
      unfold cellDateOk at h
      simp only [if_neg hs] at *
      rcases hp : parseDate s with _ | d
      · rw [hp] at h
        simp [hs, hp] at h
      · simp [hp]

/-- A successful `_validate_date` returned the parse of the cell. -/
theorem validate_date_ok_shape {v : Option String} {f : String}
    {d : Option Nat} (h : _validate_date v f = .ok d) :
    d = parseDateOpt v := by
  unfold _validate_date at h
  unfold parseDateOpt
  cases v with
  | none => exact (Except.ok.inj h).symm
  | some s =>
    simp only [] at h ⊢
    by_cases hs : s = ""
    · rw [if_pos hs] at h
      rw [if_pos hs]
      exact (Except.ok.inj h).symm
    · rw [if_neg hs] at h
      rw [if_neg hs]
      rcases hp : parseDate s with _ | p
      · rw [hp] at h
        exact absurd h (by simp)
      · rw [hp] at h
        exact (Except.ok.inj h).symm

/-- A successful `rowKey` computed `sortKeyOf`. -/
theorem rowKey_ok_shape {r : TaskRecord} {k : Nat}
    (h : rowKey r = .ok k) : k = sortKeyOf r := by
  unfold rowKey at h
  rcases hv : _validate_date r.due_date "due_date" with e | d
  · rw [hv] at h
    exact absurd h (by simp [Bind.bind, Except.bind])
  · rw [hv, ok_bind] at h
    have hd := validate_date_ok_shape hv
    subst hd
    unfold sortKeyOf
    exact (Except.ok.inj h).symm

/-- A successful `keyRows` paired every row with its total sort key, in
order. -/
theorem keyRows_ok_shape :
    ∀ {table : List TaskRecord} {ks : List (Nat × TaskRecord)},
      keyRows table = .ok ks →
      ks = table.map (fun r => (sortKeyOf r, r)) := by
  intro table
  induction table with
  | nil =>
    intro ks h
    exact (Except.ok.inj h).symm
  | cons r rest ih =>
    intro ks h
    show ks = (sortKeyOf r, r) :: rest.map (fun r => (sortKeyOf r, r))
    unfold keyRows at h
    rcases hv : rowKey r with e | k
    · rw [hv] at h
      exact absurd h (by simp [Bind.bind, Except.bind])
    · rw [hv, ok_bind] at h
      rcases hks : keyRows rest with e | ks2
      · rw [hks] at h
        exact absurd h (by simp [Bind.bind, Except.bind])
      · rw [hks, ok_bind] at h
        rw [← ih hks, ← rowKey_ok_shape hv]
        exact (Except.ok.inj h).symm

/-- Inserting into a sorted run and then filtering one key class puts
the inserted element first in its class exactly when it carries that
key; the other classes are untouched.  (This is where-insertion
stability is decided: `orderedInsert` walks past strictly smaller keys
only.) -/
theorem filter_orderedInsert (k : Nat) (p : Nat × TaskRecord) :
    ∀ l : List (Nat × TaskRecord),
      (l.orderedInsert (fun a b => a.1 ≤ b.1) p).filter (fun q => q.1 == k)
        = if p.1 == k then p :: l.filter (fun q => q.1 == k)
          else l.filter (fun q => q.1 == k)
  | [] => by
    by_cases hp : p.1 == k <;> simp [List.orderedInsert, List.filter, hp]
  | q :: t => by
    unfold List.orderedInsert
    by_cases hle : p.1 ≤ q.1
    · rw [if_pos hle]
      by_cases hp : (p.1 == k) = true <;>
        by_cases hq : (q.1 == k) = true <;>
          simp [List.filter_cons, hp, hq]
    · rw [if_neg hle]
      have ih := filter_orderedInsert k p t
      by_cases hp : (p.1 == k) = true
      · have hq : (q.1 == k) = false := by
          rcases hqq : (q.1 == k) with _ | _
          · rfl
          · exfalso
            apply hle
            rw [Nat.le_iff_lt_or_eq]
            right
            rw [beq_iff_eq] at hp hqq
            rw [hp, hqq]
        simp [List.filter_cons, hp, hq, ih]
      · rw [Bool.not_eq_true] at hp
        by_cases hq : (q.1 == k) = true <;>
          simp [List.filter_cons, hp, hq, ih]

/-- Stability of the insertion sort, phrased per key class: filtering
any one key value commutes with sorting. -/
theorem filter_insertionSort (k : Nat) :
    ∀ l : List (Nat × TaskRecord),
      (l.insertionSort (fun a b => a.1 ≤ b.1)).filter (fun q => q.1 == k)
        = l.filter (fun q => q.1 == k)
  | [] => rfl
  | p :: t => by
    unfold List.insertionSort
    rw [filter_orderedInsert, filter_insertionSort k t]
    by_cases hp : (p.1 == k) = true <;> simp [List.filter_cons, hp]

end TaskManager

namespace TaskManager

/-- One cell written and read back is the collapsed cell. -/
theorem cellRound (v : Option String) : cellIn (cellOut v) = collapseCell v := by
  cases v with
  | none => rfl
  | some s =>
    by_cases hs : s = "" <;> simp [cellIn, cellOut, collapseCell, hs]

/-- One row written and read back is the columnwise-collapsed record. -/
theorem importRow_exportRow (r : TaskRecord) :
    importRow (exportRow r) = collapse0 r := by
  simp only [importRow, exportRow, List.getD_cons_zero, List.getD_cons_succ,
    cellRound, collapse0]

/-- The imported row after the `last_updated` default step is exactly
`collapseRecord`. -/
theorem collapse_step (r : TaskRecord) (now : String) :
    { importRow (exportRow r) with
        last_updated := orNow (importRow (exportRow r)).last_updated now }
      = collapseRecord now r := by
  rw [importRow_exportRow]
  rfl

/-- Collapsing a cell does not change how `_validate_date` sees it
(`None` and `""` are the same absent date). -/
theorem validate_date_collapse (v : Option String) (f : String) :
    _validate_date (collapseCell v) f = _validate_date v f := by
  cases v with
  | none => rfl
  | some s =>
    by_cases hs : s = "" <;> simp [collapseCell, _validate_date, hs]

/-- Collapsing a cell does not change its truthiness. -/
theorem isSet_collapse (v : Option String) :
    isSet (collapseCell v) = isSet v := by
  cases v with
  | none => rfl
  | some s =>
    by_cases hs : s = "" <;> simp [collapseCell, isSet, hs]

/-- Collapsing a cell does not change equality with any non-empty
string. -/
theorem eqSome_collapse (v : Option String) (t : String) (ht : t ≠ "") :
    (collapseCell v == some t) = (v == some t) := by
  cases v with
  | none => rfl
  | some s =>
    by_cases hs : s = ""
    · subst hs
      simp [collapseCell]
      exact fun hh => ht hh.symm
    · simp [collapseCell, hs]

/-- A cell that is a member of an enum list without the empty string is
unchanged by collapsing. -/
theorem collapseCell_of_mem {v : Option String} {l : List String}
    (h : optMem v l = true) (hl : l.contains "" = false) :
    collapseCell v = v := by
  cases v with
  | none => exact absurd h (by simp [optMem])
  | some s =>
    by_cases hs : s = ""
    · subst hs
      unfold optMem at h
      simp only [] at h
      rw [h] at hl
      exact absurd hl (by simp)
    · simp [collapseCell, hs]

/-- A name that passes the name check still passes after the
collapse. -/
theorem checkName_collapse {r : TaskRecord} (now : String)
    (h : checkName r = .ok ()) :
    checkName (collapseRecord now r) = .ok () := by
  unfold checkName at h ⊢
  rcases hn : r.task_name with _ | s
  · rw [hn] at h
    exact absurd h (by simp)
  · rw [hn] at h
    simp only [] at h
    have hs : s ≠ "" := by
      intro hempty
      subst hempty
      simp at h
    have hcoll : (collapseRecord now r).task_name = some s := by
      show collapseCell r.task_name = some s
      rw [hn]
      simp [collapseCell, hs]
    rw [hcoll]
    exact h

/-- The date checks are unchanged by the collapse, unconditionally. -/
theorem dateChecks_collapse (r : TaskRecord) (now : String) :
    dateChecks (collapseRecord now r) = dateChecks r := by
  show (_validate_date (collapseCell r.start_date) "start_date" >>= fun start =>
      _validate_date (collapseCell r.due_date) "due_date" >>= fun due =>
      _validate_date (collapseCell r.completion_date) "completion_date" >>=
        fun completion =>
      failIf (dateLt due start) .startAfterDue >>= fun _ =>
      failIf (isSet (collapseCell r.completion_date)
          && !(collapseCell r.status == some "Completed"))
        .completionWithoutCompleted >>= fun _ =>
      failIf (dateLt completion start) .completionBeforeStart) = _
  rw [validate_date_collapse, validate_date_collapse, validate_date_collapse,
    isSet_collapse, eqSome_collapse r.status "Completed" (by decide)]
  rfl

/-- The record-local checks survive the collapse. -/
theorem recordChecks_collapse {r : TaskRecord} (now : String)
    (h : recordChecks r = .ok ()) :
    recordChecks (collapseRecord now r) = .ok () := by
  unfold recordChecks at h ⊢
  rw [except_bind_ok_iff] at h
  obtain ⟨⟨⟩, hname, h⟩ := h
  rw [except_bind_ok_iff] at h
  obtain ⟨⟨⟩, hprio, h⟩ := h
  rw [except_bind_ok_iff] at h
  obtain ⟨⟨⟩, hstat, hdates⟩ := h
  rw [failIf_ok_iff, Bool.not_eq_false'] at hprio hstat
  rw [except_bind_ok_iff]
  refine ⟨(), checkName_collapse now hname, ?_⟩
  rw [except_bind_ok_iff]
  have hprio2 : optMem (collapseRecord now r).priority PRIORITIES = true := by
    show optMem (collapseCell r.priority) PRIORITIES = true
    rw [collapseCell_of_mem hprio (by decide)]
    exact hprio
  have hstat2 : optMem (collapseRecord now r).status STATUSES = true := by
    show optMem (collapseCell r.status) STATUSES = true
    rw [collapseCell_of_mem hstat (by decide)]
    exact hstat
  refine ⟨(), by rw [failIf_ok_iff, Bool.not_eq_false']; exact hprio2, ?_⟩
  rw [except_bind_ok_iff]
  refine ⟨(), by rw [failIf_ok_iff, Bool.not_eq_false']; exact hstat2, ?_⟩
  rw [dateChecks_collapse]
  exact hdates

/-- The validator succeeds exactly when the record-local checks pass
and the id occurs at most once in the given table. -/
theorem validate_ok_iff {task : TaskRecord} {table : List TaskRecord} :
    _validate_task_record task table = .ok ()
      ↔ recordChecks task = .ok ()
        ∧ ((table.map TaskRecord.task_id).count task.task_id ≤ 1) := by
  unfold _validate_task_record
  rw [except_bind_ok_iff]
  constructor
  · rintro ⟨⟨⟩, hrc, hcnt⟩
    rw [failIf_ok_iff, decide_eq_false_iff_not] at hcnt
    exact ⟨hrc, Nat.not_lt.mp hcnt⟩
  · rintro ⟨hrc, hcnt⟩
    refine ⟨(), hrc, ?_⟩
    rw [failIf_ok_iff, decide_eq_false_iff_not]
    exact Nat.not_lt.mpr hcnt

/-- A list in which every member occurs at most once has no
duplicates. -/
theorem nodup_of_count_le_one {α : Type} [BEq α] [LawfulBEq α] :
    ∀ {l : List α}, (∀ a ∈ l, l.count a ≤ 1) → l.Nodup
  | [], _ => List.nodup_nil
  | x :: t, h => by
    rw [List.nodup_cons]
    constructor
    · intro hmem
      have hx := h x (by simp)
      rw [List.count_cons_self] at hx
      have : 0 < t.count x := List.count_pos_iff.mpr hmem
      omega
    · apply nodup_of_count_le_one
      intro a ha
      have := h a (by simp [ha])
      rw [List.count_cons] at this
      omega

/-- The import loop, run on the exported rows of records whose local
checks pass and whose collapsed ids (together with the accumulator ids)
are duplicate-free, appends exactly the collapsed records. -/
theorem importRows_export (now : String) :
    ∀ (rest acc : List TaskRecord),
      (∀ r ∈ rest, recordChecks r = .ok ()) →
      (acc.map TaskRecord.task_id
        ++ rest.map (fun r => collapseCell r.task_id)).Nodup →
      importRows (rest.map exportRow) acc now
        = .ok (acc ++ rest.map (collapseRecord now)) := by
  intro rest
  induction rest with
  | nil =>
    intro acc _ _
    simp [importRows]
  | cons r rest2 ih =>
    intro acc hrc hnd
    have hdisj :
        (collapseCell r.task_id) ∉ acc.map TaskRecord.task_id := by
      rw [List.nodup_append] at hnd
      intro hmem
      exact hnd.2.2 hmem (by simp)
    rw [List.map_cons]
    show (let cleaned := importRow (exportRow r);
      if acc.any (fun ex => ex.task_id == cleaned.task_id) then
        Except.error .csvDuplicateId
      else
        let cleaned2 := { cleaned with
          last_updated := orNow cleaned.last_updated now }
        match _validate_task_record cleaned2 (acc ++ [cleaned2]) with
        | .error e => .error e
        | .ok _ => importRows (rest2.map exportRow) (acc ++ [cleaned2]) now) = _
    simp only [importRow_exportRow]
    have hid0 : (collapse0 r).task_id = collapseCell r.task_id := rfl
    have hany : (acc.any fun ex => ex.task_id == (collapse0 r).task_id) = false := by
      rw [List.any_eq_false]
      intro ex hex
      have hne : ex.task_id ≠ collapseCell r.task_id := fun heq =>
        hdisj (heq ▸ List.mem_map_of_mem TaskRecord.task_id hex)
      simpa [hid0] using hne
    rw [hany]
    simp only [Bool.false_eq_true, if_false]
    have hclean2 : ({ collapse0 r with
        last_updated := orNow (collapse0 r).last_updated now } : TaskRecord)
          = collapseRecord now r := rfl
    rw [hclean2]
    have hval : _validate_task_record (collapseRecord now r)
        (acc ++ [collapseRecord now r]) = .ok () := by
      rw [validate_ok_iff]
      refine ⟨recordChecks_collapse now (hrc r (by simp)), ?_⟩
      have hcid : (collapseRecord now r).task_id = collapseCell r.task_id := rfl
      rw [List.map_append, List.count_append, hcid]
      have h1 : (acc.map TaskRecord.task_id).count (collapseCell r.task_id) = 0 := by
        rw [List.count_eq_zero]
        exact hdisj
      have h2 : ([collapseRecord now r].map TaskRecord.task_id).count
          (collapseCell r.task_id) = 1 := by
        simp [hcid]
      rw [h1, h2]
    rw [hval]
    have hrec := ih (acc ++ [collapseRecord now r])
      (fun x hx => hrc x (by simp [hx]))
      (by
        rw [List.map_append, List.append_assoc]
        show (acc.map TaskRecord.task_id ++
          ([collapseCell r.task_id] ++
            rest2.map (fun x => collapseCell x.task_id))).Nodup
        rw [List.singleton_append]
        exact hnd)
    rw [hrec, List.append_assoc, List.singleton_append]
    rfl

end TaskManager

namespace TaskManager

/-- C4 (amended): (1) along every sequence of successful `add_task`
calls from a table with pairwise-distinct `task_id` values, the ids stay
pairwise distinct; (2) supplying a **non-empty** `task_id` that already
occurs in the table makes `add_task` signal the duplicate-id error (the
empty string is excluded because the truthiness test replaces it with a
fresh id, see the counterexample).  In this pure embedding a failing
call returns only the error, so the caller keeps the unchanged table. -/
theorem add_task_id_uniqueness :
    (∀ (inputs : List (TaskRecord × String × String))
        (table t2 : List TaskRecord),
        (table.map TaskRecord.task_id).Nodup →
        addAll table inputs = .ok t2 →
        (t2.map TaskRecord.task_id).Nodup)
    ∧ (∀ (table : List TaskRecord) (td : TaskRecord) (fid now s : String),
        td.task_id = some s → s ≠ "" →
        some s ∈ table.map TaskRecord.task_id →
        add_task table td fid now = .error .duplicateId) := by
  constructor
  · intro inputs
    induction inputs with
    | nil =>
      intro table t2 hn h
      simp only [addAll] at h
      exact (Except.ok.inj h) ▸ hn
    | cons p rest ih =>
      intro table t2 hn h
      obtain ⟨td, fid, now⟩ := p
      simp only [addAll] at h
      split at h
      · exact absurd h (by simp)
      · rename_i tmid hstep
        exact ih tmid t2 (add_task_preserves_nodup hstep hn) h
  · intro table td fid now s htd hs hmem
    have hcid : chosenId td fid = s := by
      simp [chosenId, htd, hs]
    unfold add_task
    simp only []
    rw [hcid]
    have hany : (table.any fun row => row.task_id == some s) = true := by
      rw [List.any_eq_true]
      rw [List.mem_map] at hmem
      obtain ⟨r, hr, hrid⟩ := hmem
      exact ⟨r, hr, by simp [hrid]⟩
    rw [hany]
    simp

/-- C4 witness: one successful `addAll` run from the empty table leaves
distinct ids, and adding the non-empty id `t1` to a table already
holding it fails with the duplicate-id error. -/
theorem add_task_id_uniqueness_witness :
    (([exEmptyIdAdded] : List TaskRecord).map TaskRecord.task_id).Nodup
      ∧ add_task [exRound] exDupIdData "fresh-1" "TS" = .error .duplicateId :=
  ⟨add_task_id_uniqueness.1 [(exEmptyIdData, "fresh-1", "TS")] [] [exEmptyIdAdded]
      (by decide) (by decide),
    add_task_id_uniqueness.2 [exRound] exDupIdData "fresh-1" "TS" "t1"
      (by decide) (by decide) (by decide)⟩

/-- C10: `add_task` treats a supplied empty-string `task_id` like an
absent one.  On any successful call with a non-empty fresh id: if the
data supplied `""` the appended record carries the fresh id instead;
and a table whose records all have non-empty-string ids never gains an
empty-string id. -/
theorem add_task_empty_id_fresh (table : List TaskRecord) (td : TaskRecord)
    (fid now : String) (t2 : List TaskRecord)
    (hfid : fid ≠ "") (h : add_task table td fid now = .ok t2) :
    (td.task_id = some "" →
      t2 = table ++ [{ td with task_id := some fid, last_updated := some now }])
    ∧ ((∀ r ∈ table, r.task_id ≠ some "") → ∀ r ∈ t2, r.task_id ≠ some "") := by
  obtain ⟨ht2, _⟩ := add_task_ok_shape h
  constructor
  · intro hblank
    rw [ht2]
    have : chosenId td fid = fid := by simp [chosenId, hblank]
    rw [this]
  · intro htab r hr
    rw [ht2, List.mem_append] at hr
    rcases hr with hr | hr
    · exact htab r hr
    · rw [List.mem_singleton] at hr
      subst hr
      simp only []
      intro hcontra
      have hid : chosenId td fid = "" := Option.some.inj hcontra
      unfold chosenId at hid
      revert hid
      split
      · rename_i s hsome
        split
        · exact fun hh => hfid hh
        · rename_i hne
          exact fun hh => hne hh
      · exact fun hh => hfid hh

/-- C10 witness: adding data with `task_id = ""` stores the fresh id
`fresh-1`. -/
theorem add_task_empty_id_fresh_witness :
    ([exEmptyIdAdded] : List TaskRecord)
      = [] ++
        [{ exEmptyIdData with task_id := some "fresh-1", last_updated := some "TS" }] :=
  (add_task_empty_id_fresh [] exEmptyIdData "fresh-1" "TS" [exEmptyIdAdded]
    (by decide) (by decide)).1 (by decide)

/-- C5: when the first row matching `taskId` exists and the merged
candidate fails validation, `update_task` signals an error (either that
validation error, or — if the updates also tried to change the id — the
immutable-field error).  The embedding is a pure function from the old
table, so a failing call hands the caller nothing but the error: the
caller's table, including every record and its `last_updated` stamp, is
the unchanged input value. -/
theorem update_task_invalid_signals_error (table : List TaskRecord)
    (tid : String) (u : TaskUpdates) (now : String) (i : Nat)
    (row : TaskRecord) (e : Err)
    (hfind : table.findIdx? (fun r => r.task_id == some tid) = some i)
    (hrow : table[i]? = some row)
    (hval : _validate_task_record (mergeRecord row u tid now)
        (table.set i (mergeRecord row u tid now)) = .error e) :
    isError (update_task table tid u now) = true := by
  unfold update_task
  split
  · rename_i v hu
    by_cases hv : v = some tid
    · rw [if_pos hv, updateFound_invalid hfind hrow hval]
      rfl
    · rw [if_neg hv]
      rfl
  · rw [updateFound_invalid hfind hrow hval]
    rfl

/-- C5 witness: moving `status` away from `Completed` while
`completion_date` stays set makes the update fail. -/
theorem update_task_invalid_signals_error_witness :
    isError (update_task [exCompleted] "t1" exUpdStatus "NOW") = true :=
  update_task_invalid_signals_error [exCompleted] "t1" exUpdStatus "NOW" 0
    exCompleted .completionWithoutCompleted (by decide) (by decide) (by decide)

/-- C7 (amended): when no record matches `taskId` **and** the updates do
not attempt to change `task_id` to a different value, `update_task`
fails with the not-found error (and, being pure, leaves the caller's
table unchanged).  The extra proviso is forced by the counterexample:
the immutability guard runs first. -/
theorem update_task_not_found (table : List TaskRecord) (tid : String)
    (u : TaskUpdates) (now : String)
    (hno : ∀ r ∈ table, r.task_id ≠ some tid)
    (himm : ∀ v, u.task_id = some v → v = some tid) :
    update_task table tid u now = .error (.notFound tid) := by
  have hfind : table.findIdx? (fun r => r.task_id == some tid) = none := by
    rw [List.findIdx?_eq_none_iff]
    intro r hr
    simp [hno r hr]
  unfold update_task
  split
  · rename_i v hu
    rw [if_pos (himm v hu)]
    unfold updateFound
    rw [hfind]
  · unfold updateFound
    rw [hfind]

/-- C7 witness: updating the id `zzz`, absent from the table, with an
updates dict not touching `task_id`, yields the not-found error. -/
theorem update_task_not_found_witness :
    update_task [exRound] "zzz" exUpdStatus "NOW" = .error (.notFound "zzz") :=
  update_task_not_found [exRound] "zzz" exUpdStatus "NOW" (by decide)
    (fun v hv => Option.noConfusion hv)

/-- C6 (amended): on every table whose present due dates all parse,
`overdue_tasks` returns exactly the records, in input order, whose due
date parses strictly before `today` and whose status is not
`Completed`; the proviso is forced by the counterexample (a malformed
due date raises instead of being skipped).  The boundary cases of the
claim — due today excluded, due yesterday and uncompleted included, the
completed twin excluded, dateless records excluded — are instances of
the filter; the witness evaluates them. -/
theorem overdue_tasks_filter (table : List TaskRecord) (today : Nat)
    (h : table.all dueOk = true) :
    overdue_tasks table today = .ok (table.filter (isOverdue today)) := by
  induction table with
  | nil => rfl
  | cons r rest ih =>
    rw [List.all_cons, Bool.and_eq_true] at h
    obtain ⟨hr, hrest⟩ := h
    show (_validate_date r.due_date "due_date" >>= fun due =>
          overdue_tasks rest today >>= fun tail =>
          match due with
          | none => .ok tail
          | some d =>
            if d < today && !(r.status == some "Completed") then
              .ok (r :: tail)
            else .ok tail) = _
    rw [validate_date_eq_ok r.due_date "due_date" hr, ok_bind, ih hrest, ok_bind]
    unfold isOverdue
    rcases hp : parseDateOpt r.due_date with _ | d
    · simp [List.filter_cons, hp]
    · simp only [List.filter_cons, hp]
      by_cases hcond : (d < today && !(r.status == some "Completed")) = true
      · simp [hcond]
      · simp [Bool.eq_false_iff.mpr hcond]

/-- C6 witness: with today = 2024-01-15, of the four records (due
today; due yesterday, open; due yesterday, completed; no due date) only
the open yesterday record is overdue. -/
theorem overdue_tasks_filter_witness :
    ([exDueToday, exDueYest, exDueYestDone, exNoDue].all dueOk) = true
      ∧ overdue_tasks [exDueToday, exDueYest, exDueYestDone, exNoDue]
          (mkDate 2024 1 15) = .ok [exDueYest]
      ∧ [exDueToday, exDueYest, exDueYestDone, exNoDue].filter
          (isOverdue (mkDate 2024 1 15)) = [exDueYest] :=
  ⟨by decide,
    (overdue_tasks_filter [exDueToday, exDueYest, exDueYestDone, exNoDue]
        (mkDate 2024 1 15) (by decide)).trans (by decide),
    by decide⟩

/-- C9: the sort is stable.  Whenever the sort returns an output,
restricting both output and input to the records of any one composite
sort key value gives the same list — so records with equal keys
(including two absent due dates under equal priority ranks) keep their
relative input order. -/
theorem sort_tasks_stable (table out : List TaskRecord)
    (h : sort_tasks_by_priority_and_due_date table = .ok out) (k : Nat) :
    out.filter (fun r => sortKeyOf r == k)
      = table.filter (fun r => sortKeyOf r == k) := by
  unfold sort_tasks_by_priority_and_due_date at h
  rcases hkr : keyRows table with e | ks
  · rw [hkr] at h
    exact absurd h (by simp [Except.map])
  · rw [hkr] at h
    have hks := keyRows_ok_shape hkr
    have hout : out = (ks.insertionSort (fun p q => p.1 ≤ q.1)).map Prod.snd := by
      exact (Except.ok.inj (by exact h)).symm
    subst hout
    have hmem : ∀ q ∈ ks.insertionSort (fun p q => p.1 ≤ q.1),
        (sortKeyOf q.2 == k) = (q.1 == k) := by
      intro q hq
      rw [List.mem_insertionSort, hks, List.mem_map] at hq
      obtain ⟨r, _, hrq⟩ := hq
      rw [← hrq]
    have hmem2 : ∀ q ∈ ks, (q.1 == k) = (sortKeyOf q.2 == k) := by
      intro q hq
      rw [hks, List.mem_map] at hq
      obtain ⟨r, _, hrq⟩ := hq
      rw [← hrq]
    calc ((ks.insertionSort (fun p q => p.1 ≤ q.1)).map Prod.snd).filter
            (fun r => sortKeyOf r == k)
        = ((ks.insertionSort (fun p q => p.1 ≤ q.1)).filter
            (fun q => sortKeyOf q.2 == k)).map Prod.snd := by
          rw [List.filter_map]
          rfl
      _ = ((ks.insertionSort (fun p q => p.1 ≤ q.1)).filter
            (fun q => q.1 == k)).map Prod.snd := by
          rw [List.filter_congr hmem]
      _ = (ks.filter (fun q => q.1 == k)).map Prod.snd := by
          rw [filter_insertionSort]
      _ = (ks.filter (fun q => sortKeyOf q.2 == k)).map Prod.snd := by
          rw [List.filter_congr hmem2]
      _ = table.filter (fun r => sortKeyOf r == k) := by
          rw [hks, List.filter_map, List.map_map]
          show (table.filter (fun r => sortKeyOf r == k)).map id = _
          rw [List.map_id]

/-- C9 witness: two records with the same composite key (High,
2024-01-05) keep their input order below the Low record; the filter on
their key class is unchanged by the sort. -/
theorem sort_tasks_stable_witness :
    sort_tasks_by_priority_and_due_date [exS1, exS2, exSC]
        = .ok [exSC, exS1, exS2]
      ∧ ([exSC, exS1, exS2] : List TaskRecord).filter
            (fun r => sortKeyOf r == 220240105)
          = [exS1, exS2, exSC].filter (fun r => sortKeyOf r == 220240105) :=
  ⟨by decide,
    sort_tasks_stable [exS1, exS2, exSC] [exSC, exS1, exS2] (by decide)
      220240105⟩

/-- C2 (amended): exporting a table whose records all pass validation
(against that table) and all carry a present `task_id`, then importing
the file, succeeds and returns the records in order, each equal field
by field to the original after collapsing every empty-string cell to
absent, with `last_updated` refreshed exactly when it was absent or
empty.  The collapse clause is forced by the counterexample: the
unamended claim promised that the empty string survives. -/
theorem csv_roundtrip_modulo_collapse (table : List TaskRecord) (now : String)
    (hv : ∀ r ∈ table, _validate_task_record r table = .ok ())
    (hid : ∀ r ∈ table, r.task_id ≠ none) :
    import_from_csv (export_to_csv table) now
      = .ok (table.map (collapseRecord now)) := by
  unfold export_to_csv import_from_csv
  show (if COLUMNS = COLUMNS then importRows (table.map exportRow) [] now
    else .error .csvSchemaMismatch) = _
  rw [if_pos rfl]
  have hnodup : (table.map TaskRecord.task_id).Nodup := by
    apply nodup_of_count_le_one
    intro a ha
    rw [List.mem_map] at ha
    obtain ⟨r, hr, hra⟩ := ha
    rw [← hra]
    exact ((validate_ok_iff).mp (hv r hr)).2
  have hcoll : (table.map (fun r => collapseCell r.task_id)).Nodup := by
    have : table.map (fun r => collapseCell r.task_id)
        = (table.map TaskRecord.task_id).map collapseCell := by
      rw [List.map_map]
      rfl
    rw [this]
    refine List.Nodup.map_on ?_ hnodup
    intro x hx y hy hxy
    rw [List.mem_map] at hx hy
    obtain ⟨rx, hrx, hrxe⟩ := hx
    obtain ⟨ry, hry, hrye⟩ := hy
    obtain ⟨a, hxa⟩ := Option.ne_none_iff_exists'.mp (hrxe ▸ hid rx hrx)
    obtain ⟨b, hyb⟩ := Option.ne_none_iff_exists'.mp (hrye ▸ hid ry hry)
    subst hxa hyb
    by_cases hae : a = ""
    · by_cases hbe : b = ""
      · rw [hae, hbe]
      · exfalso
        rw [hae] at hxy
        simp [collapseCell, hbe] at hxy
    · by_cases hbe : b = ""
      · exfalso
        rw [hbe] at hxy
        simp [collapseCell, hae] at hxy
      · simp [collapseCell, hae, hbe] at hxy
        rw [hxy]
  have hrc : ∀ r ∈ table, recordChecks r = .ok () := by
    intro r hr
    exact ((validate_ok_iff).mp (hv r hr)).1
  have := importRows_export now table [] hrc (by simpa using hcoll)
  simpa using this

/-- C2 witness: the valid one-record table `exRound` round-trips to its
collapsed image (the counterexample shows the collapse is a real
change). -/
theorem csv_roundtrip_modulo_collapse_witness :
    import_from_csv (export_to_csv [exRound]) "NOW0"
      = .ok ([exRound].map (collapseRecord "NOW0")) :=
  csv_roundtrip_modulo_collapse [exRound] "NOW0" (by decide) (by decide)

end TaskManager
